import Mathlib

/-!
Verification of the training-orchestration harness of the
`parakeet_examples` repository (files `tacotron2/train.py` and
`waveflow/config.py`) against its natural-language specification.

The Python sources are shallowly embedded as pure Lean definitions:

* batch assembly performed by `DataLoader` (with and without
  `drop_last`), as configured in `Experiment.setup_dataloader`;
* the validation/training split produced by `dataset.split`;
* the observability events (`visualizer.add_scalar`,
  `display.add_attention_plots`) emitted by `Experiment.train_batch`
  and `Experiment.valid`, including their rank gating;
* the wall-clock timing instrumentation of `Experiment.train_batch`;
* the process-launch decision in `main`;
* the yacs-style configuration object used by the `__main__` block
  (`merge_from_file`, `merge_from_list`, `freeze`) and the
  `get_cfg_defaults` clone-the-module-default pattern of
  `waveflow/config.py`.

Library code that lives outside the repository (paddle, parakeet,
yacs) is modelled from the specification; each such definition carries
a doc comment saying so.
-/

namespace ParakeetExamples

/-! ## Batch assembly (paddle `DataLoader` batching) -/

/-- Modelled from the spec: the batching loop of a sequential
`DataLoader` over an example sequence. It repeatedly emits full
batches of `bs` consecutive examples; a trailing batch shorter than
`bs` is dropped when `dropLast` is `true` and emitted as-is when
`dropLast` is `false`. The first argument is recursion fuel, at least
the length of the example list. -/
def chunkGo (bs : Nat) (dropLast : Bool) : Nat → List α → List (List α)
  | _, [] => []
  | 0, _ :: _ => []
  | fuel + 1, x :: xs =>
    if bs ≤ (x :: xs).length then
      (x :: xs).take bs :: chunkGo bs dropLast fuel ((x :: xs).drop bs)
    else if dropLast then [] else [x :: xs]

/-- Modelled from the spec: the full sequence of batches a
`DataLoader` with batch size `bs` yields over `xs`. -/
def dataLoaderBatches (bs : Nat) (dropLast : Bool) (xs : List α) : List (List α) :=
  chunkGo bs dropLast xs.length xs

/-- Source `Experiment.setup_dataloader` (non-parallel branch): the
training loader is built with `drop_last=True`. -/
def train_loader_batches (bs : Nat) (train_set : List α) : List (List α) :=
  dataLoaderBatches bs true train_set

/-- Source `Experiment.setup_dataloader`: the validation loader is
built with `drop_last=False` over the validation split. -/
def valid_loader_batches (bs : Nat) (valid_set : List α) : List (List α) :=
  dataLoaderBatches bs false valid_set

theorem chunkGo_dropLast_sizes (bs : Nat) (hbs : 0 < bs) :
    ∀ fuel (xs : List α), xs.length ≤ fuel →
      ∀ b ∈ chunkGo bs true fuel xs, b.length = bs := by
  intro fuel
  induction fuel with
  | zero =>
    intro xs hlen b hb
    have : xs = [] := List.length_eq_zero.mp (Nat.le_zero.mp hlen)
    subst this
    simp [chunkGo] at hb
  | succ n ih =>
    intro xs hlen b hb
    match xs with
    | [] => simp [chunkGo] at hb
    | x :: rest =>
      rw [chunkGo] at hb
      by_cases hfit : bs ≤ (x :: rest).length
      · rw [if_pos hfit] at hb
        rcases List.mem_cons.mp hb with h1 | h2
        · subst h1
          simp only [List.length_take, List.length_cons]
          simp only [List.length_cons] at hfit
          omega
        · refine ih ((x :: rest).drop bs) ?_ b h2
          have hdrop : ((x :: rest).drop bs).length = (x :: rest).length - bs :=
            List.length_drop bs (x :: rest)
          omega
      · rw [if_neg hfit] at hb
        simp at hb

theorem chunkGo_keep_flatten (bs : Nat) (hbs : 0 < bs) :
    ∀ fuel (xs : List α), xs.length ≤ fuel →
      (chunkGo bs false fuel xs).flatten = xs := by
  intro fuel
  induction fuel with
  | zero =>
    intro xs hlen
    have : xs = [] := List.length_eq_zero.mp (Nat.le_zero.mp hlen)
    subst this
    simp [chunkGo]
  | succ n ih =>
    intro xs hlen
    match xs with
    | [] => simp [chunkGo]
    | x :: rest =>
      rw [chunkGo]
      by_cases hfit : bs ≤ (x :: rest).length
      · rw [if_pos hfit]
        have hdrop : ((x :: rest).drop bs).length = (x :: rest).length - bs :=
          List.length_drop bs (x :: rest)
        have hrec := ih ((x :: rest).drop bs) (by omega)
        simp only [List.flatten_cons, hrec]
        exact List.take_append_drop bs (x :: rest)
      · rw [if_neg hfit]
        simp

theorem train_loader_batch_sizes (bs : Nat) (hbs : 0 < bs) (xs : List α) :
    ∀ b ∈ train_loader_batches bs xs, b.length = bs :=
  chunkGo_dropLast_sizes bs hbs xs.length xs (Nat.le_refl _)

theorem valid_loader_flatten (bs : Nat) (hbs : 0 < bs) (ys : List α) :
    (valid_loader_batches bs ys).flatten = ys :=
  chunkGo_keep_flatten bs hbs ys.length ys (Nat.le_refl _)

/-- C4: the training batch source (built with `drop_last=True`) only
yields batches of exactly `batch_size` examples, while the validation
batch source (built with `drop_last=False`) loses no example: its
batches flatten back to the whole validation split, so one pass
visits exactly the validation split's example count. -/
theorem train_drops_partial_valid_keeps_all (bs : Nat) (hbs : 0 < bs)
    (xs ys : List Nat) :
    ((train_loader_batches bs xs).all fun b => b.length == bs) = true ∧
    (valid_loader_batches bs ys).flatten = ys ∧
    ((valid_loader_batches bs ys).map List.length).sum = ys.length := by
  refine ⟨?_, valid_loader_flatten bs hbs ys, ?_⟩
  · rw [List.all_eq_true]
    intro b hb
    exact beq_iff_eq.mpr (train_loader_batch_sizes bs hbs xs b hb)
  · rw [← List.length_flatten, valid_loader_flatten bs hbs ys]

/-- Witness for C4: with batch size 8, a 20-example training split
yields only full batches of 8, and a 70-example validation split is
covered completely (8 full batches plus one batch of 6). -/
theorem train_drops_partial_valid_keeps_all_witness :
    ((train_loader_batches 8 (List.range 20)).all fun b => b.length == 8) = true ∧
    (valid_loader_batches 8 (List.range 70)).flatten = List.range 70 ∧
    ((valid_loader_batches 8 (List.range 70)).map List.length).sum = (List.range 70).length :=
  train_drops_partial_valid_keeps_all 8 (by decide) (List.range 20) (List.range 70)

/-! ## Dataset split (`dataset.split`) -/

/-- Modelled from the spec: parakeet's `dataset.split(ds, n)` used by
`Experiment.setup_dataloader`; the first `n` examples are reserved for
validation and the rest form the training split, returned as
`(valid_set, train_set)`. -/
def dataset_split (ds : List α) (n : Nat) : List α × List α :=
  (ds.take n, ds.drop n)

/-- C10: `setup_dataloader` partitions the dataset into two disjoint
views whose concatenation is the whole dataset: a validation split of
exactly `config.data.valid_size` examples and a training split of the
remaining ones; no example is in both. -/
theorem setup_split_partition (ds : List Nat) (n : Nat)
    (h : n ≤ ds.length) (hnd : ds.Nodup) :
    (dataset_split ds n).1.length = n ∧
    (dataset_split ds n).2.length = ds.length - n ∧
    (dataset_split ds n).1 ++ (dataset_split ds n).2 = ds ∧
    List.Disjoint (dataset_split ds n).1 (dataset_split ds n).2 := by
  refine ⟨?_, ?_, ?_, ?_⟩
  · simpa [dataset_split] using h
  · simp [dataset_split]
  · exact List.take_append_drop n ds
  · exact List.disjoint_take_drop hnd (Nat.le_refl n)

/-- Witness for C10: a 70-example dataset with `valid_size = 64`
splits into a 64-example validation view and a 6-example training
view that together restore the dataset and share no example. -/
theorem setup_split_partition_witness :
    (dataset_split (List.range 70) 64).1.length = 64 ∧
    (dataset_split (List.range 70) 64).2.length = (List.range 70).length - 64 ∧
    (dataset_split (List.range 70) 64).1 ++ (dataset_split (List.range 70) 64).2 = List.range 70 ∧
    List.Disjoint (dataset_split (List.range 70) 64).1 (dataset_split (List.range 70) 64).2 :=
  setup_split_partition (List.range 70) 64 (by simp) (List.nodup_range 70)

/-! ## Process launch (`main`) -/

/-- Outcome of the launcher: either the experiment body runs directly
in the current process (which then has rank 0), or `nprocs` worker
processes are spawned, each with its rank and its copy of the config. -/
inductive RunOutcome (C : Type) where
  | direct (rank : Nat) (cfg : C)
  | spawned (workers : List (Nat × C))
deriving DecidableEq

/-- Modelled from the spec: `dist.spawn(main_sp, args=(config, args),
nprocs=N)` starts `N` worker processes, worker `r` receiving a unique
rank `r` in `[0, N)` and an identical copy of the config. -/
def dist_spawn (nprocs : Nat) (cfg : C) : RunOutcome C :=
  RunOutcome.spawned ((List.range nprocs).map fun r => (r, cfg))

/-- Source `main`: spawn `nprocs` workers iff `args.nprocs > 1 and
args.device == "gpu"`; otherwise call `main_sp` directly in the
current process. -/
def main (cfg : C) (nprocs : Nat) (device : String) : RunOutcome C :=
  if 1 < nprocs ∧ device = "gpu" then dist_spawn nprocs cfg
  else RunOutcome.direct 0 cfg

/-- C5: the launcher enters multi-process mode exactly when
`nprocs > 1` and the device is `"gpu"`; the spawned workers carry the
ranks `0..nprocs-1` (each exactly once) and all receive the same
config; in every other case the experiment body runs directly in the
current process. -/
theorem launcher_mode_correct (cfg : C) (nprocs : Nat) (device : String) :
    (1 < nprocs ∧ device = "gpu" →
      main cfg nprocs device =
        RunOutcome.spawned ((List.range nprocs).map fun r => (r, cfg)) ∧
      ((List.range nprocs).map fun r => (r, cfg)).map Prod.fst = List.range nprocs ∧
      (∀ w ∈ (List.range nprocs).map fun r => (r, cfg), w.2 = cfg)) ∧
    (nprocs ≤ 1 ∨ device ≠ "gpu" → main cfg nprocs device = RunOutcome.direct 0 cfg) := by
  constructor
  · intro hmulti
    refine ⟨?_, ?_, ?_⟩
    · simp [main, dist_spawn, hmulti]
    · rw [List.map_map]
      exact List.map_id (List.range nprocs)
    · intro w hw
      rcases List.mem_map.mp hw with ⟨r, _, hr⟩
      subst hr
      rfl
  · intro hsingle
    have hnot : ¬(1 < nprocs ∧ device = "gpu") := by
      rcases hsingle with h1 | h2
      · exact fun hc => absurd hc.1 (Nat.not_lt.mpr h1)
      · exact fun hc => absurd hc.2 h2
    simp [main, hnot]

/-- Witness for C5: with 2 processes on `"gpu"` the launcher spawns
workers of ranks 0 and 1 sharing the config; with 1 process on
`"gpu"`, and with 4 processes on `"cpu"`, it runs directly. -/
theorem launcher_mode_correct_witness :
    main (7 : Nat) 2 "gpu" = RunOutcome.spawned [(0, 7), (1, 7)] ∧
    main (7 : Nat) 1 "gpu" = RunOutcome.direct 0 7 ∧
    main (7 : Nat) 4 "cpu" = RunOutcome.direct 0 7 := by
  refine ⟨?_, ?_, ?_⟩
  · have h := (launcher_mode_correct (7 : Nat) 2 "gpu").1 ⟨by decide, rfl⟩
    exact h.1.trans (by decide)
  · exact (launcher_mode_correct (7 : Nat) 1 "gpu").2 (Or.inl (by decide))
  · exact (launcher_mode_correct (7 : Nat) 4 "cpu").2 (Or.inr (by decide))

/-! ## Timing instrumentation of `Experiment.train_batch` -/

/-- Wall-clock state, in abstract time units. -/
structure Clock where
  now : Nat
deriving DecidableEq

/-- Advance the wall clock across one blocking operation of duration `d`. -/
def elapse (c : Clock) (d : Nat) : Clock := ⟨c.now + d⟩

/-- The two timings logged by one training step. -/
structure StepTimings where
  data_loader_time : Nat
  iteration_time : Nat
deriving DecidableEq

/-- Source `Experiment.train_batch`, timing instrumentation:
`start = time.time()` is taken before `read_batch()`;
`data_loader_time = time.time() - start` right after the batch is
obtained; after `clear_grad`, forward, loss, backward and
`optimizer.step` (taking `computeDur` units), `iteration_time =
time.time() - start` is measured against the same `start`. -/
def train_batch_times (c : Clock) (fetchDur computeDur : Nat) :
    StepTimings × Clock :=
  let start := c.now
  let c1 := elapse c fetchDur
  let data_loader_time := c1.now - start
  let c2 := elapse c1 computeDur
  let iteration_time := c2.now - start
  (⟨data_loader_time, iteration_time⟩, c2)

/-- C6 counterexample: with a 1-unit batch fetch and a 2-unit
computation phase, the second logged timing is 3, not the 2 units of
pure computation: it is measured from before the batch fetch, so it
does not exclude the fetch time as the claim states. -/
theorem iteration_time_excludes_fetch_cex :
    ¬ (train_batch_times ⟨0⟩ 1 2).1.iteration_time = 2 := by decide

/-- C6 amended: the first logged timing is exactly the batch-fetch
duration, and the second is the fetch duration plus the computation
duration: it covers the whole step from before obtaining the batch
through the optimizer update, so the pure computation time is the
difference of the two timings, not the second timing itself. -/
theorem train_batch_timings_spec (c : Clock) (fetchDur computeDur : Nat) :
    (train_batch_times c fetchDur computeDur).1.data_loader_time = fetchDur ∧
    (train_batch_times c fetchDur computeDur).1.iteration_time = fetchDur + computeDur := by
  constructor <;> simp [train_batch_times, elapse, Nat.add_assoc]

/-! ## Observability events of `train_batch` and `valid` -/

/-- An event accepted by the ObservabilityChannel (the visualizer): a
named scalar or a named visual artifact, keyed by an iteration. -/
inductive ObsEvent where
  | scalar (tag : String) (value : Rat) (step : Nat)
  | artifact (tag : String) (step : Nat)
deriving DecidableEq

/-- Whether an event is a visual artifact (attention-alignment plot). -/
def isArtifact : ObsEvent → Bool
  | ObsEvent.artifact _ _ => true
  | ObsEvent.scalar _ _ _ => false

/-- Number of artifact events in a trace. -/
def countArtifacts (evs : List ObsEvent) : Nat :=
  (evs.filter isArtifact).length

/-- Source `Experiment.train_batch`, observability part: only when
`dist.get_rank() == 0`, each entry of `losses_np` is forwarded as a
scalar under `train_loss/<name>`, keyed by the current iteration. -/
def train_batch_obs (rank : Nat) (iteration : Nat)
    (losses_np : List (String × Rat)) : List ObsEvent :=
  if rank = 0 then
    losses_np.map fun kv => ObsEvent.scalar ("train_loss/" ++ kv.1) kv.2 iteration
  else []

/-- Modelled from the spec: `display.add_attention_plots(visualizer,
tag, attention_weights, iteration)` (parakeet, not under `src/`)
forwards one attention-alignment artifact per example of the batch
(the batch dimension of `attention_weights`), each under a
per-example tag derived from `tag`. -/
def add_attention_plots (tag : String) (batch : List α) (iteration : Nat) :
    List ObsEvent :=
  (List.range batch.length).map fun j =>
    ObsEvent.artifact (tag ++ "/" ++ toString j) iteration

/-- Append `v` to the list stored under key `k`, creating the key at
the end when absent: the update behaviour of a `defaultdict(list)`
iterated in key-insertion order. -/
def insertAppend : List (String × List Rat) → String → Rat → List (String × List Rat)
  | [], k, v => [(k, [v])]
  | kv :: rest, k, v =>
    if kv.1 = k then (kv.1, kv.2 ++ [v]) :: rest
    else kv :: insertAppend rest k v

/-- Source `Experiment.valid`: `valid_losses[k].append(float(v))` over
one batch's LossBundle. -/
def collect (acc : List (String × List Rat)) (kvs : List (String × Rat)) :
    List (String × List Rat) :=
  kvs.foldl (fun a kv => insertAppend a kv.1 kv.2) acc

/-- Source `Experiment.valid`: `np.mean(v)` over a collected loss list. -/
def listMean (vs : List Rat) : Rat := vs.sum / vs.length

/-- Source `Experiment.valid`, main loop over
`enumerate(self.valid_loader)`: batch `i` contributes its LossBundle
values to the per-key loss lists and one `add_attention_plots` call
under tag `valid_sentence_<i>_alignments`; returns the collected loss
lists and the artifact events in emission order. -/
def valid_go (lossFn : List α → List (String × Rat)) (iteration : Nat) :
    Nat → List (List α) → List (String × List Rat) →
    List (String × List Rat) × List ObsEvent
  | _, [], acc => (acc, [])
  | i, b :: rest, acc =>
    let losses := lossFn b
    let evs := add_attention_plots ("valid_sentence_" ++ toString i ++ "_alignments") b iteration
    let r := valid_go lossFn iteration (i + 1) rest (collect acc losses)
    (r.1, evs ++ r.2)

/-- Source `Experiment.valid`, full event trace: the per-batch
artifact events in batch order, then one `valid/<name>` scalar per
collected loss key (its mean over the pass), keyed by the current
iteration. -/
def valid_events (iteration : Nat) (batches : List (List α))
    (lossFn : List α → List (String × Rat)) : List ObsEvent :=
  let r := valid_go lossFn iteration 0 batches []
  r.2 ++ r.1.map fun kv => ObsEvent.scalar ("valid/" ++ kv.1) (listMean kv.2) iteration

/-! ## Experiment state, rank gating, gradient mode -/

/-- Experiment state relevant to the claims: the iteration counter,
the model parameters and the optimizer state (the latter two
abstract). -/
structure ExpState (P O : Type) where
  iteration : Nat
  params : P
  opt : O

/-- Source `Experiment.train_batch`, state part: `loss.backward()` and
`optimizer.step()` update the parameters and the optimizer state
(through an abstract update function); nothing in the body writes the
iteration counter. -/
def train_batch_update (upd : P → O → P × O) (s : ExpState P O) : ExpState P O :=
  { s with params := (upd s.params s.opt).1, opt := (upd s.params s.opt).2 }

/-- Modelled from the spec: the ExperimentBase main loop (parakeet,
not under `src/`) increments `iteration` by exactly one per training
step and runs `train_batch`. -/
def training_step (upd : P → O → P × O) (s : ExpState P O) : ExpState P O :=
  train_batch_update upd { s with iteration := s.iteration + 1 }

/-- Modelled from the spec: `@mp_tools.rank_zero_only` (parakeet, not
under `src/`) makes the decorated method a no-op on every process
whose rank is non-zero. -/
def rank_zero_only (rank : Nat) (body : α → α × List ObsEvent) :
    α → α × List ObsEvent :=
  fun s => if rank = 0 then body s else (s, [])

/-- Source `Experiment.valid`: computes per-batch losses and emits the
observability trace; it never writes `iteration`, the parameters or
the optimizer state, and the whole method is gated by
`rank_zero_only`. -/
def valid_pass (rank : Nat) (batches : List (List α))
    (lossFn : List α → List (String × Rat)) :
    ExpState P O → ExpState P O × List ObsEvent :=
  rank_zero_only rank fun s => (s, valid_events s.iteration batches lossFn)

/-- Whether gradient tracking is currently enabled. -/
structure GradMode where
  enabled : Bool

/-- Modelled from the spec: `@paddle.no_grad()` runs the decorated
body with gradient tracking disabled for its whole duration. -/
def no_grad_call (body : GradMode → β) : GradMode → β :=
  fun _ => body ⟨false⟩

/-- Source `Experiment.valid`: one model forward call per validation
batch; each call records whether gradient tracking was enabled when
it ran. The whole body runs under `paddle.no_grad`. -/
def valid_forward_flags (batches : List (List α)) : GradMode → List Bool :=
  no_grad_call fun g => batches.map fun _ => g.enabled

/-! ## Theorems about rank gating, iteration and validation -/

/-- C1: a worker with non-zero rank makes zero ObservabilityChannel
calls: its `train_batch` forwards no `train_loss/<name>` scalar and
its `valid` emits nothing at all; rank 0 forwards exactly one
`train_loss/<name>` scalar per loss entry, keyed by the current
iteration, and is the only rank that runs the validation pass. -/
theorem rank_gating_observability (rank iteration : Nat)
    (losses_np : List (String × Rat)) (batches : List (List Nat))
    (lossFn : List Nat → List (String × Rat)) (s : ExpState Int Int)
    (h : rank ≠ 0) :
    train_batch_obs rank iteration losses_np = [] ∧
    (valid_pass rank batches lossFn s).2 = [] ∧
    train_batch_obs 0 iteration losses_np =
      losses_np.map fun kv => ObsEvent.scalar ("train_loss/" ++ kv.1) kv.2 iteration := by
  refine ⟨?_, ?_, ?_⟩
  · simp [train_batch_obs, h]
  · simp [valid_pass, rank_zero_only, h]
  · simp [train_batch_obs]

/-- Witness for C1: a rank-1 worker emits nothing from a training
step with one loss entry nor from a validation pass over one batch,
while rank 0 emits the `train_loss/loss` scalar. -/
theorem rank_gating_observability_witness :
    train_batch_obs 1 3 [("loss", 2)] = [] ∧
    (valid_pass 1 [[10, 11]] (fun _ => [("loss", 2)]) ⟨3, (0 : Int), (0 : Int)⟩).2 = [] ∧
    train_batch_obs 0 3 [("loss", 2)] =
      [("loss", (2 : Rat))].map fun kv => ObsEvent.scalar ("train_loss/" ++ kv.1) kv.2 3 :=
  rank_gating_observability 1 3 [("loss", 2)] [[10, 11]] (fun _ => [("loss", 2)])
    ⟨3, (0 : Int), (0 : Int)⟩ (by decide)

/-- C2: one training step increments the iteration counter by exactly
one, for every rank and parameter-update function, and a full
validation pass leaves it unchanged. -/
theorem iteration_increments_once (upd : P → O → P × O) (s : ExpState P O)
    (rank : Nat) (batches : List (List Nat))
    (lossFn : List Nat → List (String × Rat)) :
    (training_step upd s).iteration = s.iteration + 1 ∧
    ((valid_pass rank batches lossFn s).1).iteration = s.iteration := by
  constructor
  · rfl
  · unfold valid_pass rank_zero_only
    by_cases h : rank = 0 <;> simp [h]

/-- C3: validation is a read-only pass: the experiment state after
`valid` — iteration, model parameters, optimizer state — equals the
state before, for every rank, and every forward call inside it runs
with gradient tracking disabled. -/
theorem valid_readonly_no_grad (rank : Nat) (batches : List (List Nat))
    (lossFn : List Nat → List (String × Rat)) (s : ExpState P O) (g : GradMode) :
    (valid_pass rank batches lossFn s).1 = s ∧
    valid_forward_flags batches g = List.replicate batches.length false := by
  constructor
  · unfold valid_pass rank_zero_only
    by_cases h : rank = 0 <;> simp [h]
  · unfold valid_forward_flags no_grad_call
    exact List.map_const batches false

theorem add_attention_plots_count (tag : String) (b : List α) (iteration : Nat) :
    countArtifacts (add_attention_plots tag b iteration) = b.length := by
  simp [countArtifacts, add_attention_plots, isArtifact, List.filter_map,
    Function.comp_def]

theorem valid_go_artifact_count (lossFn : List α → List (String × Rat))
    (iteration : Nat) :
    ∀ (batches : List (List α)) (i : Nat) (acc : List (String × List Rat)),
      countArtifacts (valid_go lossFn iteration i batches acc).2 =
        (batches.map List.length).sum := by
  intro batches
  induction batches with
  | nil =>
    intro i acc
    simp [valid_go, countArtifacts]
  | cons b rest ih =>
    intro i acc
    simp only [valid_go, List.map_cons, List.sum_cons]
    rw [countArtifacts, List.filter_append, List.length_append]
    rw [← countArtifacts, ← countArtifacts, add_attention_plots_count, ih]

theorem scalar_events_no_artifacts (iteration : Nat)
    (kvs : List (String × List Rat)) :
    countArtifacts (kvs.map fun kv =>
      ObsEvent.scalar ("valid/" ++ kv.1) (listMean kv.2) iteration) = 0 := by
  simp [countArtifacts, isArtifact, List.filter_map, Function.comp_def]

theorem valid_events_artifact_count (iteration : Nat)
    (batches : List (List α)) (lossFn : List α → List (String × Rat)) :
    countArtifacts (valid_events iteration batches lossFn) =
      (batches.map List.length).sum := by
  unfold valid_events
  rw [countArtifacts, List.filter_append, List.length_append,
    ← countArtifacts, ← countArtifacts, valid_go_artifact_count,
    scalar_events_no_artifacts, Nat.add_zero]

/-- C7: one attention-alignment artifact is forwarded per validation
example: over the validation loader (built with `drop_last=False`)
the number of artifact events equals the validation split's size, and
for a 2-example validation split collated into one batch exactly two
artifacts are emitted, under two distinct per-example tags. -/
theorem valid_alignment_artifacts (bs : Nat) (hbs : 0 < bs) (ys : List Nat)
    (iteration : Nat) (lossFn : List Nat → List (String × Rat)) :
    countArtifacts (valid_events iteration (valid_loader_batches bs ys) lossFn) =
      ys.length ∧
    (valid_events 5 (valid_loader_batches 2 [10, 11])
        (fun _ => [("loss", (1 : Rat))])).filter isArtifact =
      [ObsEvent.artifact "valid_sentence_0_alignments/0" 5,
       ObsEvent.artifact "valid_sentence_0_alignments/1" 5] ∧
    ("valid_sentence_0_alignments/0" : String) ≠ "valid_sentence_0_alignments/1" := by
  refine ⟨?_, by decide, by decide⟩
  rw [valid_events_artifact_count, ← List.length_flatten,
    valid_loader_flatten bs hbs ys]

/-- Witness for C7: the 2-example validation split `[10, 11]` with
batch size 2 forms one batch and yields exactly two alignment
artifacts. -/
theorem valid_alignment_artifacts_witness :
    countArtifacts (valid_events 5 (valid_loader_batches 2 [10, 11])
      (fun _ => [("loss", (1 : Rat))])) = ([10, 11] : List Nat).length ∧
    (valid_events 5 (valid_loader_batches 2 [10, 11])
        (fun _ => [("loss", (1 : Rat))])).filter isArtifact =
      [ObsEvent.artifact "valid_sentence_0_alignments/0" 5,
       ObsEvent.artifact "valid_sentence_0_alignments/1" 5] ∧
    ("valid_sentence_0_alignments/0" : String) ≠ "valid_sentence_0_alignments/1" :=
  valid_alignment_artifacts 2 (by decide) [10, 11] 5 (fun _ => [("loss", (1 : Rat))])

/-! ## Configuration objects (`yacs.config.CfgNode`) -/

/-- A hyperparameter value: integer, float (modelled as a rational)
or list of integers, the three value shapes of `waveflow/config.py`. -/
inductive CVal where
  | vint (n : Int)
  | vfloat (q : Rat)
  | vlist (ns : List Int)
deriving DecidableEq

/-- Whether two values have the same type (yacs validates type
compatibility on merge). -/
def sameKind : CVal → CVal → Bool
  | CVal.vint _, CVal.vint _ => true
  | CVal.vfloat _, CVal.vfloat _ => true
  | CVal.vlist _, CVal.vlist _ => true
  | _, _ => false

/-- Replace the value stored under `k`, keeping order and the other
keys untouched. -/
def setEntry : List (String × CVal) → String → CVal → List (String × CVal)
  | [], _, _ => []
  | kv :: rest, k, v =>
    if kv.1 = k then (kv.1, v) :: rest else kv :: setEntry rest k v

/-- Look up the value stored under `k`. -/
def lookupEntry : List (String × CVal) → String → Option CVal
  | [], _ => none
  | kv :: rest, k => if kv.1 = k then some kv.2 else lookupEntry rest k

/-- Errors raised by the configuration object. -/
inductive ConfigError where
  | writeAfterFreeze
  | badKey
  | badType
deriving DecidableEq

/-- Modelled from the spec: a yacs-style config node — a keyed value
tree (dotted keys, flattened in declaration order) plus a frozen
flag. -/
structure Cfg where
  entries : List (String × CVal)
  frozen : Bool
deriving DecidableEq

/-- Modelled from the spec: one write to the config. After `freeze`
every write fails with `ConfigError`; before it, the key must already
exist in the schema with a type-compatible value. -/
def cfg_set (c : Cfg) (k : String) (v : CVal) : Except ConfigError Cfg :=
  if c.frozen then Except.error ConfigError.writeAfterFreeze
  else
    match lookupEntry c.entries k with
    | none => Except.error ConfigError.badKey
    | some v0 =>
      if sameKind v0 v then Except.ok { c with entries := setEntry c.entries k v }
      else Except.error ConfigError.badType

/-- One override application, absorbing an earlier failure (the
exception aborts the remaining overrides). -/
def mergeStep (r : Except ConfigError Cfg) (kv : String × CVal) :
    Except ConfigError Cfg :=
  match r with
  | Except.error e => Except.error e
  | Except.ok c => cfg_set c kv.1 kv.2

/-- Modelled from the spec: `merge_from_list` applies
`[key, value, key, value, ...]` overrides in order, each validated
like a single write; the first failure aborts the merge. -/
def merge_from_list (c : Cfg) (l : List (String × CVal)) :
    Except ConfigError Cfg :=
  l.foldl mergeStep (Except.ok c)

/-- Modelled from the spec: `merge_from_file` overlays the key-value
pairs found in the structured file onto the tree, key by key, with
the same validation as list overrides. -/
def merge_from_file (c : Cfg) (file : List (String × CVal)) : Except ConfigError Cfg :=
  merge_from_list c file

/-- Modelled from the spec: `freeze` finalizes the tree. -/
def freeze (c : Cfg) : Cfg := { c with frozen := true }

/-- The value of the last override of key `k` in a flat override list
(later overrides win). -/
def lastLookup : List (String × CVal) → String → Option CVal
  | [], _ => none
  | kv :: rest, k =>
    match lastLookup rest k with
    | some v => some v
    | none => if kv.1 = k then some kv.2 else none

/-! ## `waveflow/config.py` defaults and `get_cfg_defaults` -/

/-- Source `waveflow/config.py`: the compiled default tree `_C`,
flattened to dotted keys in declaration order. -/
def waveflow_defaults : List (String × CVal) := [
  ("data.batch_size", CVal.vint 8),
  ("data.valid_size", CVal.vint 64),
  ("data.sample_rate", CVal.vint 22050),
  ("data.n_fft", CVal.vint 1024),
  ("data.win_length", CVal.vint 1024),
  ("data.hop_length", CVal.vint 256),
  ("data.f_max", CVal.vint 8000),
  ("data.n_mels", CVal.vint 80),
  ("data.clip_frames", CVal.vint 65),
  ("model.upsample_factors", CVal.vlist [16, 16]),
  ("model.n_flows", CVal.vint 8),
  ("model.n_layers", CVal.vint 8),
  ("model.n_group", CVal.vint 16),
  ("model.channels", CVal.vint 128),
  ("model.kernel_size", CVal.vlist [3, 3]),
  ("model.sigma", CVal.vfloat 1),
  ("training.lr", CVal.vfloat (1 / 10000)),
  ("training.valid_interval", CVal.vint 1000),
  ("training.save_interval", CVal.vint 10000),
  ("training.max_iteration", CVal.vint 3000000)]

/-- A heap of configuration objects; the object at index 0 is the
module-level default object `_C` of `waveflow/config.py`. -/
structure CfgHeap where
  objs : List (List (String × CVal))

/-- Contents of the object with id `i`. -/
def readObj (h : CfgHeap) (i : Nat) : List (String × CVal) :=
  h.objs.getD i []

/-- The heap at module-import time: only `_C` exists. -/
def cfgHeap0 : CfgHeap := ⟨[waveflow_defaults]⟩

/-- Source `get_cfg_defaults` of `waveflow/config.py`:
`return _C.clone()` — allocate a new object whose contents deep-copy
the module default (`clone` modelled from the spec: a deep,
alias-free copy), and return the new object's id. -/
def get_cfg_defaults (h : CfgHeap) : Nat × CfgHeap :=
  (h.objs.length, ⟨h.objs ++ [readObj h 0]⟩)

/-- In-place write of value `v` at key `k` of the object with id `i`. -/
def mutateObj (h : CfgHeap) (i : Nat) (k : String) (v : CVal) : CfgHeap :=
  ⟨h.objs.set i (setEntry (readObj h i) k v)⟩

theorem mutateObj_preserve (h : CfgHeap) (i j : Nat) (k : String) (v : CVal)
    (hij : i ≠ j) : readObj (mutateObj h i k v) j = readObj h j := by
  unfold readObj mutateObj
  rw [List.getD_eq_getElem?_getD, List.getD_eq_getElem?_getD,
    List.getElem?_set_ne hij]

theorem foldl_mutateObj_preserve (muts : List (String × CVal)) :
    ∀ (h : CfgHeap) (i j : Nat), i ≠ j →
      readObj (muts.foldl (fun h2 kv => mutateObj h2 i kv.1 kv.2) h) j = readObj h j := by
  induction muts with
  | nil =>
    intro h i j _
    rfl
  | cons kv rest ih =>
    intro h i j hij
    rw [List.foldl_cons, ih _ i j hij, mutateObj_preserve h i j kv.1 kv.2 hij]

theorem get_cfg_defaults_returns_module_defaults (h : CfgHeap) :
    readObj (get_cfg_defaults h).2 (get_cfg_defaults h).1 = readObj h 0 := by
  show (h.objs ++ [readObj h 0]).getD h.objs.length [] = readObj h 0
  rw [List.getD_eq_getElem?_getD, List.getElem?_concat_length]
  rfl

/-- C9: `get_cfg_defaults` returns a fresh, independent copy of the
compiled default tree: after any sequence of in-place mutations of
the copy returned by a first call, the module default object still
holds the original default values and a subsequent call returns them
unchanged. -/
theorem get_cfg_defaults_fresh_copy (muts : List (String × CVal)) :
    readObj (muts.foldl
      (fun h kv => mutateObj h (get_cfg_defaults cfgHeap0).1 kv.1 kv.2)
      (get_cfg_defaults cfgHeap0).2) 0 = waveflow_defaults ∧
    readObj
      (get_cfg_defaults (muts.foldl
        (fun h kv => mutateObj h (get_cfg_defaults cfgHeap0).1 kv.1 kv.2)
        (get_cfg_defaults cfgHeap0).2)).2
      (get_cfg_defaults (muts.foldl
        (fun h kv => mutateObj h (get_cfg_defaults cfgHeap0).1 kv.1 kv.2)
        (get_cfg_defaults cfgHeap0).2)).1 = waveflow_defaults := by
  have hbase :
      readObj (muts.foldl
        (fun h kv => mutateObj h (get_cfg_defaults cfgHeap0).1 kv.1 kv.2)
        (get_cfg_defaults cfgHeap0).2) 0 = waveflow_defaults := by
    have hid : (get_cfg_defaults cfgHeap0).1 = 1 := rfl
    rw [hid, foldl_mutateObj_preserve muts (get_cfg_defaults cfgHeap0).2 1 0 (by decide)]
    rfl
  exact ⟨hbase, (get_cfg_defaults_returns_module_defaults _).trans hbase⟩

/-! ## Entry-point configuration sequence (`__main__` of `tacotron2/train.py`) -/

/-- Apply the file overlay to an earlier result, absorbing failure. -/
def fileStep (r : Except ConfigError Cfg) (f : List (String × CVal)) :
    Except ConfigError Cfg :=
  match r with
  | Except.error e => Except.error e
  | Except.ok c => merge_from_file c f

/-- Apply the flat list overrides to an earlier result, absorbing
failure. -/
def listStep (r : Except ConfigError Cfg) (l : List (String × CVal)) :
    Except ConfigError Cfg :=
  match r with
  | Except.error e => Except.error e
  | Except.ok c => merge_from_list c l

/-- Freeze an earlier result, absorbing failure. -/
def freezeStep (r : Except ConfigError Cfg) : Except ConfigError Cfg :=
  match r with
  | Except.error e => Except.error e
  | Except.ok c => Except.ok (freeze c)

/-- Source `__main__` of `tacotron2/train.py`:
`config = get_cfg_defaults()` (a fresh unfrozen copy of the tacotron2
default tree — that tree lives in `tacotron2/config.py`, which is not
under `src/`, hence it is a parameter here), then
`config.merge_from_file(args.config)` when a config file is given
(`none`, modelled as the empty overlay, when not), then
`config.merge_from_list(args.opts)` when flat overrides are given,
and finally `config.freeze()`; an exception from either merge aborts
the program before `freeze`. -/
def main_config_setup (defaults : List (String × CVal))
    (cfgFile opts : Option (List (String × CVal))) : Except ConfigError Cfg :=
  freezeStep (listStep (fileStep (Except.ok ⟨defaults, false⟩) (cfgFile.getD [])) (opts.getD []))

theorem lookupEntry_setEntry_self (es : List (String × CVal)) (k : String)
    (v v0 : CVal) (h : lookupEntry es k = some v0) :
    lookupEntry (setEntry es k v) k = some v := by
  induction es with
  | nil => simp [lookupEntry] at h
  | cons kv rest ih =>
    by_cases hk : kv.1 = k
    · simp [setEntry, lookupEntry, hk]
    · simp only [lookupEntry, if_neg hk] at h
      simp [setEntry, lookupEntry, hk, ih h]

theorem lookupEntry_setEntry_ne (es : List (String × CVal)) (k k2 : String)
    (v : CVal) (hne : k ≠ k2) :
    lookupEntry (setEntry es k v) k2 = lookupEntry es k2 := by
  induction es with
  | nil => rfl
  | cons kv rest ih =>
    by_cases hk : kv.1 = k
    · simp [setEntry, lookupEntry, hk, hne]
    · by_cases h2 : kv.1 = k2 <;>
        simp [setEntry, lookupEntry, hk, h2, Ne.symm hne, ih]

theorem cfg_set_ok_inv {c : Cfg} {k : String} {v : CVal} {c2 : Cfg}
    (h : cfg_set c k v = Except.ok c2) :
    c.frozen = false ∧ c2.frozen = false ∧
    lookupEntry c2.entries k = some v ∧
    ∀ k2, k ≠ k2 → lookupEntry c2.entries k2 = lookupEntry c.entries k2 := by
  unfold cfg_set at h
  split at h
  · exact Except.noConfusion h
  · rename_i hf
    split at h
    · exact Except.noConfusion h
    · rename_i v0 hl
      split at h
      · have hc : { c with entries := setEntry c.entries k v } = c2 :=
          Except.ok.inj h
        have hfr : c.frozen = false := by
          simp only [Bool.not_eq_true] at hf
          exact hf
        subst hc
        refine ⟨hfr, hfr, ?_, ?_⟩
        · exact lookupEntry_setEntry_self c.entries k v v0 hl
        · intro k2 hne
          exact lookupEntry_setEntry_ne c.entries k k2 v hne
      · exact Except.noConfusion h

theorem cfg_set_frozen_fails (c : Cfg) (hc : c.frozen = true) (k : String) (v : CVal) :
    cfg_set c k v = Except.error ConfigError.writeAfterFreeze := by
  unfold cfg_set
  rw [hc]
  rfl

theorem foldl_mergeStep_error (l : List (String × CVal)) (e : ConfigError) :
    l.foldl mergeStep (Except.error e) = Except.error e := by
  induction l with
  | nil => rfl
  | cons kv rest ih =>
    rw [List.foldl_cons]
    exact ih

theorem merge_from_list_frozen_fails (c : Cfg) (hc : c.frozen = true)
    (kv : String × CVal) (rest : List (String × CVal)) :
    merge_from_list c (kv :: rest) = Except.error ConfigError.writeAfterFreeze := by
  unfold merge_from_list
  rw [List.foldl_cons]
  have h1 : mergeStep (Except.ok c) kv = Except.error ConfigError.writeAfterFreeze := by
    show cfg_set c kv.1 kv.2 = _
    exact cfg_set_frozen_fails c hc kv.1 kv.2
  rw [h1, foldl_mergeStep_error]

theorem lastLookup_cons_some {kv : String × CVal} {rest : List (String × CVal)}
    {k : String} {v : CVal} (h : lastLookup (kv :: rest) k = some v) :
    lastLookup rest k = some v ∨
      (lastLookup rest k = none ∧ kv.1 = k ∧ kv.2 = v) := by
  cases hr : lastLookup rest k with
  | some v2 =>
    have h3 : (match lastLookup rest k with
      | some v3 => some v3
      | none => if kv.1 = k then some kv.2 else none) = some v := h
    rw [hr] at h3
    exact Or.inl (show some v2 = some v from h3)
  | none =>
    have h3 : (match lastLookup rest k with
      | some v3 => some v3
      | none => if kv.1 = k then some kv.2 else none) = some v := h
    rw [hr] at h3
    by_cases hkk : kv.1 = k
    · have h4 : (if kv.1 = k then some kv.2 else none) = some v := h3
      rw [if_pos hkk] at h4
      exact Or.inr ⟨rfl, hkk, Option.some.inj h4⟩
    · have h4 : (if kv.1 = k then some kv.2 else none) = some v := h3
      rw [if_neg hkk] at h4
      exact Option.noConfusion h4

theorem lastLookup_cons_none {kv : String × CVal} {rest : List (String × CVal)}
    {k : String} (h : lastLookup (kv :: rest) k = none) :
    lastLookup rest k = none ∧ kv.1 ≠ k := by
  cases hr : lastLookup rest k with
  | some v2 =>
    have h3 : (match lastLookup rest k with
      | some v3 => some v3
      | none => if kv.1 = k then some kv.2 else none) = none := h
    rw [hr] at h3
    exact Option.noConfusion (show some v2 = none from h3)
  | none =>
    have h3 : (match lastLookup rest k with
      | some v3 => some v3
      | none => if kv.1 = k then some kv.2 else none) = none := h
    rw [hr] at h3
    by_cases hkk : kv.1 = k
    · have h4 : (if kv.1 = k then some kv.2 else none) = none := h3
      rw [if_pos hkk] at h4
      exact Option.noConfusion h4
    · exact ⟨rfl, hkk⟩

theorem merge_from_list_ok_inv :
    ∀ (l : List (String × CVal)) (c c2 : Cfg),
      merge_from_list c l = Except.ok c2 →
      c2.frozen = c.frozen ∧
      (∀ k v, lastLookup l k = some v → lookupEntry c2.entries k = some v) ∧
      (∀ k, lastLookup l k = none → lookupEntry c2.entries k = lookupEntry c.entries k) := by
  intro l
  induction l with
  | nil =>
    intro c c2 h
    have hc : c = c2 := Except.ok.inj (show Except.ok c = Except.ok c2 from h)
    subst hc
    exact ⟨rfl, fun k v hk => Option.noConfusion hk, fun k _ => rfl⟩
  | cons kv rest ih =>
    intro c c2 h
    have h2 : rest.foldl mergeStep (mergeStep (Except.ok c) kv) = Except.ok c2 := by
      rw [← List.foldl_cons]
      exact h
    cases hset : cfg_set c kv.1 kv.2 with
    | error e =>
      have h3 : rest.foldl mergeStep (Except.error e) = Except.ok c2 := by
        rw [← hset]
        exact h2
      rw [foldl_mergeStep_error] at h3
      exact Except.noConfusion h3
    | ok c1 =>
      have h3 : merge_from_list c1 rest = Except.ok c2 := by
        show rest.foldl mergeStep (Except.ok c1) = Except.ok c2
        rw [← hset]
        exact h2
      obtain ⟨hfr0, hfr1, hself, hother⟩ := cfg_set_ok_inv hset
      obtain ⟨hfr, hlast, habsent⟩ := ih c1 c2 h3
      refine ⟨hfr.trans (hfr1.trans hfr0.symm), ?_, ?_⟩
      · intro k v hk
        rcases lastLookup_cons_some hk with hr | ⟨hr, hkk, hv⟩
        · exact hlast k v hr
        · rw [habsent k hr, ← hkk, ← hv]
          exact hself
      · intro k hk
        obtain ⟨hr, hkk⟩ := lastLookup_cons_none hk
        rw [habsent k hr]
        exact hother k hkk

/-- C8: in the entry point, file overrides and list overrides are both
applied strictly before `freeze`, list overrides last, so when the
setup succeeds the result is frozen, a key overridden by the flat
list holds the list's last value even if the file also set it, a key
set only by the file holds the file's value, and afterwards every
write attempt — a single set or a further merge — fails with
`ConfigError`; no override after freeze is silently accepted. -/
theorem config_merge_then_freeze (defaults file opts : List (String × CVal))
    (c : Cfg)
    (hsetup : main_config_setup defaults (some file) (some opts) = Except.ok c) :
    c.frozen = true ∧
    (∀ k v, cfg_set c k v = Except.error ConfigError.writeAfterFreeze) ∧
    (∀ kv rest, merge_from_list c (kv :: rest) =
      Except.error ConfigError.writeAfterFreeze) ∧
    (∀ k v, lastLookup opts k = some v → lookupEntry c.entries k = some v) ∧
    (∀ k v, lastLookup opts k = none → lastLookup file k = some v →
      lookupEntry c.entries k = some v) := by
  have hs2 : freezeStep (listStep (merge_from_file ⟨defaults, false⟩ file) opts) =
      Except.ok c := hsetup
  cases hm1 : merge_from_file ⟨defaults, false⟩ file with
  | error e =>
    rw [hm1] at hs2
    exact Except.noConfusion (show (Except.error e : Except ConfigError Cfg) = Except.ok c from hs2)
  | ok c1 =>
    rw [hm1] at hs2
    have hs3 : freezeStep (merge_from_list c1 opts) = Except.ok c := hs2
    cases hm2 : merge_from_list c1 opts with
    | error e =>
      rw [hm2] at hs3
      exact Except.noConfusion (show (Except.error e : Except ConfigError Cfg) = Except.ok c from hs3)
    | ok c2 =>
      rw [hm2] at hs3
      have hc : freeze c2 = c :=
        Except.ok.inj (show Except.ok (freeze c2) = Except.ok c from hs3)
      subst hc
      obtain ⟨_, hlast1, habsent1⟩ := merge_from_list_ok_inv file ⟨defaults, false⟩ c1 hm1
      obtain ⟨_, hlast2, habsent2⟩ := merge_from_list_ok_inv opts c1 c2 hm2
      refine ⟨rfl, ?_, ?_, ?_, ?_⟩
      · intro k v
        exact cfg_set_frozen_fails (freeze c2) rfl k v
      · intro kv rest
        exact merge_from_list_frozen_fails (freeze c2) rfl kv rest
      · intro k v hk
        exact hlast2 k v hk
      · intro k v hnone hfile
        rw [show (freeze c2).entries = c2.entries from rfl, habsent2 k hnone]
        exact hlast1 k v hfile

/-- Witness for C8: defaults overridden by a file setting both keys
and a flat list re-setting `data.batch_size`; the frozen result keeps
the list's batch size and the file's `data.valid_size`, and a further
write fails with `ConfigError.writeAfterFreeze`. -/
theorem config_merge_then_freeze_witness :
    (⟨[("data.batch_size", CVal.vint 32),
       ("data.valid_size", CVal.vint 100)], true⟩ : Cfg).frozen = true ∧
    cfg_set ⟨[("data.batch_size", CVal.vint 32),
      ("data.valid_size", CVal.vint 100)], true⟩ "data.batch_size" (CVal.vint 64) =
      Except.error ConfigError.writeAfterFreeze ∧
    lookupEntry [("data.batch_size", CVal.vint 32),
      ("data.valid_size", CVal.vint 100)] "data.batch_size" = some (CVal.vint 32) ∧
    lookupEntry [("data.batch_size", CVal.vint 32),
      ("data.valid_size", CVal.vint 100)] "data.valid_size" = some (CVal.vint 100) := by
  have h := config_merge_then_freeze
    [("data.batch_size", CVal.vint 8), ("data.valid_size", CVal.vint 64)]
    [("data.batch_size", CVal.vint 16), ("data.valid_size", CVal.vint 100)]
    [("data.batch_size", CVal.vint 32)]
    ⟨[("data.batch_size", CVal.vint 32), ("data.valid_size", CVal.vint 100)], true⟩
    (by rfl)
  exact ⟨h.1, h.2.1 "data.batch_size" (CVal.vint 64),
    h.2.2.2.1 "data.batch_size" (CVal.vint 32) (by decide),
    h.2.2.2.2 "data.valid_size" (CVal.vint 100) (by decide) (by decide)⟩

end ParakeetExamples
